import Mathlib

/-!
Verification of the hidden-stations ns-3 scenario scripts
(`scratch/simple-ht-hidden-stations.cc`, `scratch/hiddenstations.cc`,
`scratch/hiddenstations2.cc`, `scratch/hiddenstations3.cc`).

The scripts are straight-line `main` functions; we embed the arithmetic they
perform (with C `uint32_t` semantics, i.e. reduction modulo `2^32`), the fixed
topology they build, the application windows they schedule, and the reporting
phase they run.  Parts of the program that live in the external ns-3 library
(the UDP echo applications and the discrete-event engine) are modelled from
the specification, as indicated on each definition.
-/

namespace HiddenStations

/-- Modulus of C `uint32_t` arithmetic. -/
def uint32Mod : Nat := 4294967296

/-! ## Link configuration: `maxAmpduSize = nMpdus * (payloadSize + 200)`

All four scripts compute the A-MPDU byte budget with `uint32_t` variables,
so both the sum and the product reduce modulo `2^32`. -/

/-- The A-MPDU budget computed by the scripts: `nMpdus * (payloadSize + 200)`,
with each `uint32_t` operation reducing modulo `2^32`. -/
def maxAmpduSize (nMpdus payloadSize : Nat) : Nat :=
  (nMpdus * ((payloadSize + 200) % uint32Mod)) % uint32Mod

/-! ## Throughput reporting

Each reporting script computes
`throughput = totalPacketsThrough * payloadSize * 8 / (simulationTime * 1000000.0)`
where `totalPacketsThrough` and `payloadSize` are `uint32_t` (the product wraps
modulo `2^32`) and the division is real-valued; we embed the real arithmetic
in `ℚ`. -/

/-- The numerator `totalPacketsThrough * payloadSize * 8` as the scripts compute
it: `uint32_t` multiplication, reducing modulo `2^32` at each step. -/
def totalBits (totalPacketsThrough payloadSize : Nat) : Nat :=
  (totalPacketsThrough * payloadSize % uint32Mod) * 8 % uint32Mod

/-- The reported throughput value, in Mbit/s, as computed by the scripts. -/
def throughput (totalPacketsThrough payloadSize simulationTime : Nat) : ℚ :=
  (totalBits totalPacketsThrough payloadSize : ℚ) / ((simulationTime : ℚ) * 1000000)

/-- The throughput formula as the spec words it (Throughput Reporter contract):
final ReceivedCount times payload size times 8, divided by the observation
window in seconds times `10^6`, with exact arithmetic. -/
def throughputSpec (receivedCount payloadSize simulationTime : Nat) : ℚ :=
  ((receivedCount * payloadSize * 8 : Nat) : ℚ) / ((simulationTime : ℚ) * 1000000)

/-! ## Topology (positions from the `positionAlloc` list, range from
`RangePropagationLossModel::MaxRange`) -/

/-- A 3-D coordinate, as in `ns3::Vector (x, y, z)`. -/
structure Vec where
  x : ℚ
  y : ℚ
  z : ℚ
deriving DecidableEq

/-- Position of the access point: `Vector (5.0, 5.0, 0.0)`. -/
def apPosition : Vec := ⟨5, 5, 0⟩

/-- Position of station 1: `Vector (5.0, 10.0, 0.0)`. -/
def staPosition1 : Vec := ⟨5, 10, 0⟩

/-- Position of station 2: `Vector (0.0, 5.0, 0.0)`. -/
def staPosition2 : Vec := ⟨0, 5, 0⟩

/-- Position of station 3: `Vector (5.0, 0.0, 0.0)`. -/
def staPosition3 : Vec := ⟨5, 0, 0⟩

/-- Position of station 4: `Vector (10.0, 5.0, 0.0)`. -/
def staPosition4 : Vec := ⟨10, 5, 0⟩

/-- The configured visibility range: `RangePropagationLossModel::MaxRange = 5`. -/
def maxRange : ℚ := 5

/-- Squared Euclidean distance between two positions.  Distances are
nonnegative, so `dist a b = r` is equivalent to `distSq a b = r ^ 2` for
`r ≥ 0`; working with squares keeps the embedding executable. -/
def distSq (a b : Vec) : ℚ :=
  (a.x - b.x) ^ 2 + (a.y - b.y) ^ 2 + (a.z - b.z) ^ 2

/-! ## Claims C1 to C3 -/

/-- Claim C1 (corrected): the reported throughput equals
ReceivedCount times payload times 8 over (simulationTime times `10^6`)
whenever the product `c * p * 8` fits in 32 bits; the `uint32_t` product wraps
otherwise.  A ReceivedCount of 0 is reported as exactly 0 and is not an
error. -/
theorem C1_throughput_formula (c p t : Nat) (hc : c * p * 8 < uint32Mod) :
    throughput c p t = throughputSpec c p t ∧ throughput 0 p t = 0 := by
  constructor
  · unfold throughput throughputSpec totalBits
    have h1 : c * p ≤ c * p * 8 := by
      calc c * p = c * p * 1 := by ring
      _ ≤ c * p * 8 := Nat.mul_le_mul_left _ (by norm_num)
    rw [Nat.mod_eq_of_lt (lt_of_le_of_lt h1 hc), Nat.mod_eq_of_lt hc]
  · unfold throughput totalBits
    norm_num

theorem C1_witness :
    1000 * 1472 * 8 < uint32Mod ∧
      throughput 1000 1472 10 = throughputSpec 1000 1472 10 := by
  have h : 1000 * 1472 * 8 < uint32Mod := by norm_num [uint32Mod]
  exact ⟨h, (C1_throughput_formula 1000 1472 10 h).1⟩

theorem C1_counterexample :
    throughput 536870912 1472 10 = 0 ∧
      throughputSpec 536870912 1472 10 ≠ 0 ∧ (536870912 : Nat) ≠ 0 := by
  refine ⟨?_, ?_, by norm_num⟩
  · unfold throughput totalBits uint32Mod
    norm_num
  · unfold throughputSpec
    norm_num

/-- Claim C2 (corrected): the computed A-MPDU byte budget equals
`U * (P + 200)` whenever that product fits in 32 bits; the `uint32_t`
arithmetic wraps otherwise. -/
theorem C2_maxAmpduSize_exact (U P : Nat) (hU : 1 ≤ U)
    (h : U * (P + 200) < uint32Mod) :
    maxAmpduSize U P = U * (P + 200) := by
  unfold maxAmpduSize
  have h1 : P + 200 < uint32Mod := by
    refine lt_of_le_of_lt ?_ h
    calc P + 200 = 1 * (P + 200) := by ring
    _ ≤ U * (P + 200) := Nat.mul_le_mul_right _ hU
  rw [Nat.mod_eq_of_lt h1, Nat.mod_eq_of_lt h]

theorem C2_witness :
    1 ≤ 1 ∧ 1 * (1472 + 200) < uint32Mod ∧ maxAmpduSize 1 1472 = 1672 := by
  have hU : (1 : Nat) ≤ 1 := le_refl 1
  have h : 1 * (1472 + 200) < uint32Mod := by norm_num [uint32Mod]
  refine ⟨hU, h, ?_⟩
  rw [C2_maxAmpduSize_exact 1 1472 hU h]

theorem C2_counterexample :
    (1 : Nat) ≤ 2147483648 ∧ maxAmpduSize 2147483648 0 = 0 ∧
      2147483648 * (0 + 200) ≠ 0 := by
  refine ⟨by norm_num, ?_, by norm_num⟩
  unfold maxAmpduSize uint32Mod
  norm_num

/-- Claim C3 (confirmed): in the compass-point topology with range `R = 5`,
each station is at distance exactly `R` from the access point (squared
distance `R ^ 2`), each pair of opposite stations is at distance `2 R`
(squared distance `(2 R) ^ 2`), and `2 R > R`, so the opposite pairs exceed
the visibility range: the hidden-station condition holds. -/
theorem C3_hidden_topology :
    distSq apPosition staPosition1 = maxRange ^ 2 ∧
    distSq apPosition staPosition2 = maxRange ^ 2 ∧
    distSq apPosition staPosition3 = maxRange ^ 2 ∧
    distSq apPosition staPosition4 = maxRange ^ 2 ∧
    distSq staPosition1 staPosition3 = (2 * maxRange) ^ 2 ∧
    distSq staPosition2 staPosition4 = (2 * maxRange) ^ 2 ∧
    maxRange ^ 2 < (2 * maxRange) ^ 2 ∧
    maxRange ^ 2 < distSq staPosition1 staPosition3 ∧
    maxRange < 2 * maxRange := by
  norm_num [distSq, apPosition, staPosition1, staPosition2, staPosition3,
    staPosition4, maxRange]

/-! ## Node containers, applications, addresses (C9, C10, C4) -/

/-- `NodeContainer::Create (n)`: a container holding node ids `0 .. n - 1`. -/
def nodeContainerCreate (n : Nat) : List Nat := List.range n

/-- The station container: `wifiStaNodes.Create (4)`. -/
def wifiStaNodes : List Nat := nodeContainerCreate 4

/-- The access-point container: `wifiApNode.Create (1)`. -/
def wifiApNode : List Nat := nodeContainerCreate 1

/-- Total (Option-returning) embedding of `NodeContainer::Get (i)`:
`some` node when `i < size`, `none` on the out-of-range branch. -/
def nodeGet (c : List Nat) (i : Nat) : Option Nat := List.get? c i

/-- The kind of an installed application object. -/
inductive AppKind where
  | udpServer
  | udpEchoServer
deriving DecidableEq

/-- An installed application: its dynamic type and its final receive
counter. -/
structure App where
  kind : AppKind
  received : Nat
deriving DecidableEq

/-- An application produced by `UdpEchoServerHelper::Install`. -/
def udpEchoServerApp (received : Nat) : App := ⟨AppKind.udpEchoServer, received⟩

/-- An application produced by `UdpServerHelper::Install`. -/
def udpServerApp (received : Nat) : App := ⟨AppKind.udpServer, received⟩

/-- `DynamicCast<UdpServer>`: `some` when the application really is a
`UdpServer`, `none` (a null handle) otherwise. -/
def dynamicCastUdpServer (a : App) : Option App :=
  if a.kind = AppKind.udpServer then some a else none

/-- Total embedding of `DynamicCast<UdpServer> (app)->GetReceived ()`: the
`none` branch is the null-handle dereference. -/
def getReceivedViaCast (a : App) : Option Nat :=
  (dynamicCastUdpServer a).map App.received

/-- The four server applications whose counters the reporting phase of the
first variant of `simple-ht-hidden-stations.cc` reads: all were created by
`UdpEchoServerHelper echoServer`, each with some final receive counter. -/
def serverAppsHt (counts : Fin 4 → Nat) (i : Fin 4) : App :=
  udpEchoServerApp (counts i)

/-- `Ipv4AddressHelper::Assign` on the four station devices: hosts `.1` to
`.4` of `192.168.1.0/24`, one per station. -/
def staInterfaceAddrs : List Nat := [1, 2, 3, 4]

/-- `Ipv4AddressHelper::Assign` on the single AP device: the one assigned AP
address, host `.5`. -/
def apInterfaceAddrs : List Nat := [5]

/-- Total embedding of `Ipv4InterfaceContainer::GetAddress (i)`: `none` when
interface index `i` holds no assigned address. -/
def getAddress (c : List Nat) (i : Nat) : Option Nat := List.get? c i

/-- The AP-interface indices dereferenced by the `hiddenstations.cc` client
builds: `myClient1 .. myClient5` use `ApInterface.GetAddress (0)` through
`ApInterface.GetAddress (4)`. -/
def hiddenstationsClientAddrIdx : List Nat := [0, 1, 2, 3, 4]

/-- The destination addresses the `hiddenstations.cc` build resolves for its
five UDP clients. -/
def hiddenstationsClientDests : List (Option Nat) :=
  hiddenstationsClientAddrIdx.map (getAddress apInterfaceAddrs)

/-! ## Reporting phase and flow windows (C5, C6) -/

/-- The reporting phase of the first variant of
`simple-ht-hidden-stations.cc`, as a function of the four counter reads: the
`cout` lines in program order, each a flow label and a throughput value. -/
def reportLinesHt (counts : Fin 4 → Nat) (payloadSize simulationTime : Nat) :
    List (String × ℚ) :=
  [("ServerApp1", throughput (counts 0) payloadSize simulationTime),
   ("ServerApp2", throughput (counts 1) payloadSize simulationTime),
   ("ServerApp3", throughput (counts 2) payloadSize simulationTime),
   ("ServerApp4", throughput (counts 3) payloadSize simulationTime)]

/-- Number of bounded-echo flows `hiddenstations3.cc` observes (four echo
clients, one per station, with trace hooks on their receive paths). -/
def observedFlowsH3 : Nat := 4

/-- The reporting phase of `hiddenstations3.cc`: the entire throughput block
is commented out, so a completed run emits no throughput lines. -/
def reportLinesH3 : List (String × ℚ) := []

/-- A scheduled application window: `Start (Seconds startT)` and
`Stop (Seconds stopT)`, in seconds. -/
structure AppWindow where
  startT : Nat
  stopT : Nat
deriving DecidableEq

/-- The run horizon: `Simulator::Stop (Seconds (simulationTime + 1))`. -/
def horizonHt (simulationTime : Nat) : Nat := simulationTime + 1

/-- The saturating-flow window in the first variant of
`simple-ht-hidden-stations.cc`: `clientApp1.Start (Seconds (1.0))` and
`clientApp1.Stop (Seconds (simulationTime + 1))`. -/
def satFlowWindow (simulationTime : Nat) : AppWindow := ⟨1, simulationTime + 1⟩

/-- A bounded-echo flow window in the first variant:
`Start (Seconds (1.0))`, `Stop (Seconds (10.0))`, both hard-coded. -/
def echoFlowWindow : AppWindow := ⟨1, 10⟩

/-- All traffic-flow windows of the first variant of
`simple-ht-hidden-stations.cc`: the saturating flow and the four
bounded-echo flows. -/
def flowWindowsHt (simulationTime : Nat) : List AppWindow :=
  [satFlowWindow simulationTime, echoFlowWindow, echoFlowWindow,
   echoFlowWindow, echoFlowWindow]

/-! ## Claims C4 to C6, C9, C10 -/

/-- Claim C4 (code bug): the `hiddenstations.cc` build resolves its client
destinations through AP-interface indices 0 to 4, but only one AP address
was ever assigned, so four of the five lookups reference a never-assigned
address; the build has no ConfigurationError path and proceeds. -/
theorem C4_unassigned_address_read :
    apInterfaceAddrs.length = 1 ∧
    getAddress apInterfaceAddrs 1 = none ∧
    hiddenstationsClientDests = [some 5, none, none, none, none] := by
  decide

/-- Claim C5 (corrected): in the first variant of
`simple-ht-hidden-stations.cc`, the reporting phase emits exactly one line
per tracked flow counter, labelled `ServerApp1 .. ServerApp4`, in declaration
order, with the value computed from the corresponding counter. -/
theorem C5_report_lines (counts : Fin 4 → Nat) (p t : Nat) :
    (reportLinesHt counts p t).length = 4 ∧
    (reportLinesHt counts p t).map Prod.fst =
      ["ServerApp1", "ServerApp2", "ServerApp3", "ServerApp4"] ∧
    ∀ i : Fin 4, ((reportLinesHt counts p t).map Prod.snd)[i.val]? =
      some (throughput (counts i) p t) := by
  refine ⟨rfl, rfl, ?_⟩
  intro i
  fin_cases i <;> rfl

theorem C5_counterexample :
    observedFlowsH3 = 4 ∧ reportLinesH3.length = 0 ∧
      reportLinesH3.length ≠ observedFlowsH3 := by
  refine ⟨rfl, rfl, ?_⟩
  decide

/-- Claim C6 (corrected): for simulation durations `t ≥ 9`, every flow window
of the first variant of `simple-ht-hidden-stations.cc` satisfies
`start < stop` and `stop ≤ horizon`; the horizon equals (is not strictly
greater than) the saturating flow stop-offset. -/
theorem C6_flow_windows (t : Nat) (ht : 9 ≤ t) :
    (∀ w ∈ flowWindowsHt t, w.startT < w.stopT ∧ w.stopT ≤ horizonHt t) ∧
      (satFlowWindow t).stopT = horizonHt t := by
  constructor
  · intro w hw
    simp only [flowWindowsHt, List.mem_cons, List.not_mem_nil, or_false] at hw
    rcases hw with h | h | h | h | h <;> subst h <;>
      refine ⟨?_, ?_⟩ <;>
      simp only [satFlowWindow, echoFlowWindow, horizonHt] <;> omega
  · rfl

theorem C6_witness :
    9 ≤ 10 ∧ ((satFlowWindow 10).startT < (satFlowWindow 10).stopT ∧
      (satFlowWindow 10).stopT ≤ horizonHt 10) :=
  ⟨by norm_num,
    (C6_flow_windows 10 (by norm_num)).1 (satFlowWindow 10) (by decide)⟩

theorem C6_counterexample :
    satFlowWindow 10 ∈ flowWindowsHt 10 ∧
      (satFlowWindow 10).stopT = horizonHt 10 ∧
      ¬ (satFlowWindow 10).stopT < horizonHt 10 := by
  decide

/-- Claim C9 (confirmed): every server application the first variant of
`simple-ht-hidden-stations.cc` reads in its reporting phase is a
`UdpEchoServer`, so the `DynamicCast<UdpServer>` yields a null handle and the
total embedding of the counter read takes its error branch, whatever the
final counters are. -/
theorem C9_echo_server_cast_fails (counts : Fin 4 → Nat) (i : Fin 4) :
    getReceivedViaCast (serverAppsHt counts i) = none := rfl

/-- Claim C10 (confirmed): the access-point container holds exactly one node,
yet the echo-server installation indexes it at 1 through 4; the total
embedding of `NodeContainer::Get` takes its out-of-range branch at each of
those indices. -/
theorem C10_ap_container_out_of_range :
    wifiApNode.length = 1 ∧
    nodeGet wifiApNode 1 = none ∧ nodeGet wifiApNode 2 = none ∧
    nodeGet wifiApNode 3 = none ∧ nodeGet wifiApNode 4 = none := by
  decide

/-! ## BoundedEcho flows (C7)

The `UdpEchoClient` and `UdpEchoServer` application code lives in the
external ns-3 library and is not among the repository sources; the flow
behaviour below is modelled from the spec (Traffic Plan contract). -/

/-- Modelled from the spec: a bounded request/response (`BoundedEcho`) flow:
a fixed packet budget (`MaxPackets`), a start offset, a stop offset and a
minimum inter-packet interval.  Times are in milliseconds. -/
structure BoundedEchoFlow where
  maxPackets : Nat
  startT : Nat
  stopT : Nat
  interval : Nat
deriving DecidableEq

/-- Modelled from the spec: the requests the client emits, identified by
index: request `i` goes out at `startT + i * interval`; the exchange stops at
the packet budget or at the stop offset, whichever comes first. -/
def requestsSent (f : BoundedEchoFlow) : List Nat :=
  (List.range f.maxPackets).filter (fun i => f.startT + i * f.interval < f.stopT)

/-- Modelled from the spec: the requests actually delivered over the lossy
shared medium, for a given delivery predicate. -/
def requestsDelivered (f : BoundedEchoFlow) (delivered : Nat → Bool) : List Nat :=
  (requestsSent f).filter delivered

/-- Modelled from the spec: the receiver emits exactly one reply per
delivered request, tagged with the request it answers. -/
def repliesSent (f : BoundedEchoFlow) (delivered : Nat → Bool) : List Nat :=
  requestsDelivered f delivered

/-- `MaxPackets` of each echo client in the first variant of
`simple-ht-hidden-stations.cc`. -/
def echoMaxPacketsHt : Nat := 1

/-- `MaxPackets` forced onto every echo client in `hiddenstations3.cc` by the
`Config::Set` call. -/
def echoMaxPacketsH3 : Nat := 3

/-- The bounded-echo flow of station 1 in `hiddenstations3.cc`, in
milliseconds: window 1 s to 11 s, interval 0.1 s, budget 3. -/
def echoFlowH3 : BoundedEchoFlow := ⟨echoMaxPacketsH3, 1000, 11000, 100⟩

/-- Claim C7 (confirmed, spec-modelled): a `BoundedEcho` flow with packet
budget `K` delivers at most `K` requests, and each delivered request draws
exactly one reply from the receiver. -/
theorem C7_bounded_echo (f : BoundedEchoFlow) (delivered : Nat → Bool) :
    (requestsDelivered f delivered).length ≤ f.maxPackets ∧
      ∀ i ∈ requestsDelivered f delivered,
        (repliesSent f delivered).count i = 1 := by
  constructor
  · calc (requestsDelivered f delivered).length
        ≤ (requestsSent f).length := List.length_filter_le _ _
    _ ≤ (List.range f.maxPackets).length := List.length_filter_le _ _
    _ = f.maxPackets := List.length_range _
  · intro i hi
    have hnd : (requestsDelivered f delivered).Nodup := by
      unfold requestsDelivered requestsSent
      exact ((List.nodup_range _).filter _).filter _
    exact List.count_eq_one_of_mem hnd hi

theorem C7_witness :
    (requestsDelivered echoFlowH3 (fun _ => true)).length ≤
        echoFlowH3.maxPackets ∧
      0 ∈ requestsDelivered echoFlowH3 (fun _ => true) ∧
      (repliesSent echoFlowH3 (fun _ => true)).count 0 = 1 :=
  ⟨(C7_bounded_echo echoFlowH3 (fun _ => true)).1, by decide,
    (C7_bounded_echo echoFlowH3 (fun _ => true)).2 0 (by decide)⟩

/-! ## Deterministic discrete-event engine (C8)

The simulation engine is the external ns-3 collaborator and is not among the
repository sources; it is modelled from the spec (Concurrency and Resource
Model): one global event queue ordered by simulated time, interleaved
deterministically by timestamp, with a unique per-event scheduling id
breaking ties. -/

/-- Modelled from the spec: a delivery event: its simulated time, its unique
scheduling id, and the destination whose ReceivedCount it increments. -/
structure Event where
  time : Nat
  uid : Nat
  dst : Nat
deriving DecidableEq

/-- Modelled from the spec: an engine state: the pending event queue and the
per-destination ReceivedCount table. -/
structure EngState where
  queue : List Event
  counts : List Nat
deriving DecidableEq

/-- The dispatch key of an event: simulated time, tie-broken by id. -/
def key (e : Event) : Nat × Nat := (e.time, e.uid)

/-- Dispatch order: earlier time first, lower id first on equal times. -/
def keyLe (e eB : Event) : Prop :=
  e.time < eB.time ∨ (e.time = eB.time ∧ e.uid ≤ eB.uid)

instance keyLeDec (e eB : Event) : Decidable (keyLe e eB) := by
  unfold keyLe
  exact inferInstance

/-- Increment the ReceivedCount of destination `d`. -/
def incrCount (l : List Nat) (d : Nat) : List Nat := l.set d (l.getD d 0 + 1)

/-- Remove a dispatched event from the queue and apply its effect. -/
def dispatch (e : Event) (s : EngState) : EngState :=
  ⟨s.queue.erase e, incrCount s.counts e.dst⟩

/-- The event the engine picks next: a queue member minimal in dispatch
order. -/
def IsMinimal (e : Event) (q : List Event) : Prop :=
  e ∈ q ∧ ∀ eB ∈ q, keyLe e eB

/-- One engine step: dispatch some minimal pending event. -/
def Dispatches (s t : EngState) : Prop :=
  ∃ e, IsMinimal e s.queue ∧ t = dispatch e s

/-- All pending events carry pairwise distinct dispatch keys. -/
def KeysDistinct (q : List Event) : Prop :=
  q.Pairwise (fun a b => key a ≠ key b)

/-- A complete run: engine steps until the event queue is drained. -/
inductive RunsTo : EngState → EngState → Prop
  | done (s : EngState) : s.queue = [] → RunsTo s s
  | step (s t u : EngState) : Dispatches s t → RunsTo t u → RunsTo s u

theorem keyLe_antisymm {e eB : Event} (h1 : keyLe e eB) (h2 : keyLe eB e) :
    key e = key eB := by
  unfold keyLe at h1 h2
  unfold key
  have ht : e.time = eB.time := by omega
  have hu : e.uid = eB.uid := by omega
  rw [ht, hu]

theorem keysDistinct_ne {q : List Event} (hd : KeysDistinct q) {e eB : Event}
    (he : e ∈ q) (heB : eB ∈ q) (hne : e ≠ eB) : key e ≠ key eB := by
  have hsym : Symmetric fun a b : Event => key a ≠ key b := by
    intro x y h hk
    exact h hk.symm
  exact List.Pairwise.forall hsym hd he heB hne

theorem minimal_unique {q : List Event} (hd : KeysDistinct q) {e eB : Event}
    (h1 : IsMinimal e q) (h2 : IsMinimal eB q) : e = eB := by
  by_contra hne
  exact keysDistinct_ne hd h1.1 h2.1 hne
    (keyLe_antisymm (h1.2 eB h2.1) (h2.2 e h1.1))

theorem dispatches_det {s t u : EngState} (hd : KeysDistinct s.queue)
    (h1 : Dispatches s t) (h2 : Dispatches s u) : t = u := by
  obtain ⟨e, he, rfl⟩ := h1
  obtain ⟨eB, heB, rfl⟩ := h2
  rw [minimal_unique hd he heB]

theorem dispatches_keysDistinct {s t : EngState} (hd : KeysDistinct s.queue)
    (h : Dispatches s t) : KeysDistinct t.queue := by
  obtain ⟨e, he, rfl⟩ := h
  exact List.Pairwise.sublist (List.erase_sublist e s.queue) hd

theorem runsTo_det {s f1 : EngState} (h1 : RunsTo s f1) :
    ∀ {f2 : EngState}, KeysDistinct s.queue → RunsTo s f2 → f1 = f2 := by
  induction h1 with
  | done s hq =>
    intro f2 _ h2
    cases h2 with
    | done _ _ => rfl
    | step _ t _ hdis _ =>
      obtain ⟨e, he, _⟩ := hdis
      rw [hq] at he
      exact absurd he.1 (List.not_mem_nil e)
  | step s t u hdis hrun ih =>
    intro f2 hd h2
    cases h2 with
    | done _ hq =>
      obtain ⟨e, he, _⟩ := hdis
      rw [hq] at he
      exact absurd he.1 (List.not_mem_nil e)
    | step _ tB _ hdisB hrunB =>
      have heq : t = tB := dispatches_det hd hdis hdisB
      subst heq
      exact ih (dispatches_keysDistinct hd hdis) hrunB

/-- Modelled from the spec: `scheduleFlow` assigns each scheduled delivery a
fresh id; a traffic plan is a list of (time, destination) deliveries. -/
def mkEvents (u : Nat) (plan : List (Nat × Nat)) : List Event :=
  match plan with
  | [] => []
  | (tm, d) :: rest => ⟨tm, u, d⟩ :: mkEvents (u + 1) rest

/-- Modelled from the spec: the engine state right after the Run Controller
hand-off: every scheduled delivery pending, every ReceivedCount zero. -/
def initState (nNodes : Nat) (plan : List (Nat × Nat)) : EngState :=
  ⟨mkEvents 0 plan, List.replicate nNodes 0⟩

theorem mkEvents_uid_ge {u : Nat} {plan : List (Nat × Nat)} {e : Event}
    (h : e ∈ mkEvents u plan) : u ≤ e.uid := by
  induction plan generalizing u with
  | nil => simp [mkEvents] at h
  | cons hd tl ih =>
    obtain ⟨tm, d⟩ := hd
    simp only [mkEvents, List.mem_cons] at h
    rcases h with h | h
    · subst h
      exact le_refl _
    · exact le_trans (Nat.le_succ u) (ih h)

theorem mkEvents_keysDistinct (u : Nat) (plan : List (Nat × Nat)) :
    KeysDistinct (mkEvents u plan) := by
  induction plan generalizing u with
  | nil => exact List.Pairwise.nil
  | cons hd tl ih =>
    obtain ⟨tm, d⟩ := hd
    refine List.Pairwise.cons ?_ (ih (u + 1))
    intro b hb
    have hu : u + 1 ≤ b.uid := mkEvents_uid_ge hb
    simp only [key, ne_eq, Prod.mk.injEq, not_and]
    intro _ hequid
    omega

/-- Claim C8 (confirmed, spec-modelled): two complete engine runs from the
identical scenario configuration end with bit-identical ReceivedCount
tables: the engine is deterministic as a function of its configuration. -/
theorem C8_determinism (nNodes : Nat) (plan : List (Nat × Nat))
    (f1 f2 : EngState) (h1 : RunsTo (initState nNodes plan) f1)
    (h2 : RunsTo (initState nNodes plan) f2) : f1.counts = f2.counts := by
  rw [runsTo_det h1 (mkEvents_keysDistinct 0 plan) h2]

theorem runsToExampleC8 : RunsTo (initState 1 [(5, 0)]) ⟨[], [1]⟩ :=
  RunsTo.step _ ⟨[], [1]⟩ _
    ⟨⟨5, 0, 0⟩, ⟨by decide, by decide⟩, by decide⟩
    (RunsTo.done _ rfl)

theorem C8_witness : ([1] : List Nat) = [1] :=
  C8_determinism 1 [(5, 0)] ⟨[], [1]⟩ ⟨[], [1]⟩ runsToExampleC8 runsToExampleC8

end HiddenStations
